import Mathlib

/-!
Verification of the bpki container helpers (STB 34.101.78 profile) of the
bee2 library, against the repository's specification.

The repository exposes the bpki subsystem through its header
`include/bee2/crypto/bpki.h`, which declares:
  * `bpkiEPK_keep l` / `bpkiESS_keep l` — container sizes per security level
    `l ∈ {128, 192, 256}`;
  * `bpkiEPKEnc` / `bpkiEPKDec` — encode/decode of a private-key container;
  * `bpkiESSEnc` / `bpkiESSDec` — encode/decode of a secret-share container.
The function bodies are not part of the visible sources, so the operations
below are modelled from the specification: byte strings are `List Nat`
(octets as naturals), the external PBKDF2 key derivation and the
authenticated sealing primitive are modelled as ideal deterministic
functions (injective key derivation, a tag that verifies exactly when key
and ciphertext match), and the container layout is one self-consistent
choice — the spec leaves the exact field order open and constrains only the
sizes: `[level, salt (8 cells), iter, ciphertext (payload length), tag]`.
-/

namespace Bpki

/-- Error outcomes of the spec's error domain: success is represented by
`Res.ok`, failures by `badInput` (precondition violated, detected before
any cryptography) and `authFail` (tag verification failed). -/
inductive Err where
  | badInput
  | authFail
deriving DecidableEq, Repr

/-- Result of an encode/decode call: either a produced byte string
(container on encode, payload on decode) or an error code. -/
inductive Res where
  | ok (bytes : List Nat)
  | err (e : Err)
deriving DecidableEq, Repr

/-- Injective encoding of a byte string into a natural number
(used to model ideal primitives). -/
def encL : List Nat → Nat
  | [] => 0
  | a :: t => Nat.pair a (encL t) + 1

/-- The C signatures pass `const octet salt[8]`: exactly 8 octets are read
at the salt pointer. Reading a list argument as an 8-octet salt. -/
def pad8 (salt : List Nat) : List Nat := (salt ++ List.replicate 8 0).take 8

/-- Modelled from the spec: the external key-derivation routine
(`beltPBKDF2`, §4.2/§6 of the spec) is a black box
`derive(password, salt, iterations) → key`, deterministic, and such that a
different password yields a different key (spec §8 "Wrong password").
Modelled as an ideal injective derivation. -/
def derive (pwd salt : List Nat) (iter : Nat) : Nat :=
  Nat.pair (encL pwd) (Nat.pair (encL salt) iter)

/-- Modelled from the spec: the authentication tag of the external sealing
primitive (§4.3). Ideal: the tag binds the key and the ciphertext. -/
def mac (key : Nat) (ct : List Nat) : Nat := Nat.pair key ct.sum

/-- Modelled from the spec: the encryption half of the external sealing
primitive — a keyed cell-wise transformation, invertible under the key. -/
def encMask (key : Nat) (xs : List Nat) : List Nat := xs.map (fun b => b + key)

/-- Inverse of `encMask` under the same key. -/
def decMask (key : Nat) (xs : List Nat) : List Nat := xs.map (fun b => b - key)

/-- Modelled from the spec: `seal(key, plaintext) → (ciphertext, tag)`
(spec §4.3 SealEngine). -/
def sealAE (key : Nat) (pt : List Nat) : List Nat × Nat :=
  (encMask key pt, mac key (encMask key pt))

/-- Modelled from the spec: `unseal(key, ciphertext, tag) → plaintext | AuthFail`
(spec §4.3). Fails closed exactly when the tag does not verify. -/
def unsealAE (key : Nat) (ct : List Nat) (tag : Nat) : Option (List Nat) :=
  if tag = mac key ct then some (decMask key ct) else none

/-- Modelled from the spec: `bpkiEPK_keep l`, the private-key container size
for level `l` (header lines 51–57; body not in the visible sources).
Layout: 1 level cell + 8 salt cells + 1 iteration cell + `l/4` ciphertext
cells + 1 tag cell. -/
def bpkiEPK_keep (l : Nat) : Nat := l / 4 + 11

/-- Modelled from the spec: `bpkiESS_keep l`, the secret-share container
size for level `l` (header lines 108–114; body not in the visible sources).
The share payload has `l/8 + 1` octets (index octet + value octets). -/
def bpkiESS_keep (l : Nat) : Nat := l / 8 + 12

/-- Container assembly: level identifier, salt, iteration count,
ciphertext, tag. -/
def assemble (l : Nat) (s8 : List Nat) (iter : Nat) (ct : List Nat)
    (tag : Nat) : List Nat :=
  l :: (s8 ++ (iter :: (ct ++ [tag])))

/-- Modelled from the spec: `bpkiEPKEnc` (header lines 59–80; spec §4.4).
Validates `privkey_len ∈ {32,48,64}` and `iter ≥ 10000` (each failure is
`ERR_BAD_INPUT`), derives the protection key from the password, seals the
private key and assembles the container. -/
def bpkiEPKEnc (privkey pwd : List Nat) (iter : Nat) (salt : List Nat) :
    Res :=
  if privkey.length = 32 ∨ privkey.length = 48 ∨ privkey.length = 64 then
    if 10000 ≤ iter then
      let s8 := pad8 salt
      let key := derive pwd s8 iter
      let sl := sealAE key privkey
      Res.ok (assemble (4 * privkey.length) s8 iter sl.1 sl.2)
    else Res.err Err.badInput
  else Res.err Err.badInput

/-- Level recovered from a private-key container length
(the exact inverse of `bpkiEPK_keep`, spec §4.1). -/
def epkLevel (n : Nat) : Nat :=
  if n = bpkiEPK_keep 128 then 128
  else if n = bpkiEPK_keep 192 then 192
  else 256

/-- Modelled from the spec: `bpkiEPKDec` (header lines 82–100; spec §4.4).
Rejects any container length other than `bpkiEPK_keep l` for
`l ∈ {128,192,256}` with `ERR_BAD_INPUT`; otherwise reads the protection
parameters from the container, derives the key from the password and
unseals; a tag mismatch is an authentication failure. -/
def bpkiEPKDec (cont pwd : List Nat) : Res :=
  if cont.length = bpkiEPK_keep 128 ∨ cont.length = bpkiEPK_keep 192 ∨
      cont.length = bpkiEPK_keep 256 then
    let l := epkLevel cont.length
    let pl := l / 4
    let s8 := (cont.drop 1).take 8
    let rest := cont.drop 9
    let iter := rest.headD 0
    let ct := (rest.drop 1).take pl
    let tag := (rest.drop (1 + pl)).headD 0
    match unsealAE (derive pwd s8 iter) ct tag with
    | some pt => Res.ok pt
    | none => Res.err Err.authFail
  else Res.err Err.badInput

/-- Modelled from the spec: `bpkiESSEnc` (header lines 116–139; spec §4.5).
Validates `share_len ∈ {17,25,33}`, `iter ≥ 10000` and
`1 ≤ share[0] ≤ 16` (each failure is `ERR_BAD_INPUT`), then protects the
full share exactly as the EPK encoder does. -/
def bpkiESSEnc (share pwd : List Nat) (iter : Nat) (salt : List Nat) :
    Res :=
  if share.length = 17 ∨ share.length = 25 ∨ share.length = 33 then
    if 10000 ≤ iter then
      if 1 ≤ share.headD 0 ∧ share.headD 0 ≤ 16 then
        let s8 := pad8 salt
        let key := derive pwd s8 iter
        let sl := sealAE key share
        Res.ok (assemble (8 * (share.length - 1)) s8 iter sl.1 sl.2)
      else Res.err Err.badInput
    else Res.err Err.badInput
  else Res.err Err.badInput

/-- Level recovered from a secret-share container length
(the exact inverse of `bpkiESS_keep`, spec §4.1). -/
def essLevel (n : Nat) : Nat :=
  if n = bpkiESS_keep 128 then 128
  else if n = bpkiESS_keep 192 then 192
  else 256

/-- Modelled from the spec: `bpkiESSDec` (header lines 141–159; spec §4.5).
Rejects any container length other than `bpkiESS_keep l` for
`l ∈ {128,192,256}` with `ERR_BAD_INPUT`; otherwise derives the key and
unseals, and re-validates that the recovered share index lies in `[1,16]`
(defense-in-depth; a failure here indicates a container that no valid
encode produced, reported as an authentication failure). -/
def bpkiESSDec (cont pwd : List Nat) : Res :=
  if cont.length = bpkiESS_keep 128 ∨ cont.length = bpkiESS_keep 192 ∨
      cont.length = bpkiESS_keep 256 then
    let l := essLevel cont.length
    let pl := l / 8 + 1
    let s8 := (cont.drop 1).take 8
    let rest := cont.drop 9
    let iter := rest.headD 0
    let ct := (rest.drop 1).take pl
    let tag := (rest.drop (1 + pl)).headD 0
    match unsealAE (derive pwd s8 iter) ct tag with
    | some pt =>
        if 1 ≤ pt.headD 0 ∧ pt.headD 0 ≤ 16 then Res.ok pt
        else Res.err Err.authFail
    | none => Res.err Err.authFail
  else Res.err Err.badInput

/-- `bpkiESSDec` with an explicit view of the caller's container after the
call: the header declares `cont` as `const octet[]` for the ESS decoder, so
the container bytes are unchanged by the call. -/
def bpkiESSDecFrame (cont pwd : List Nat) : Res × List Nat :=
  (bpkiESSDec cont pwd, cont)

/-- Header signature fact: the `cont` parameter of `bpkiESSDec` is declared
`const` (header line 155). -/
def bpkiESSDec_cont_const : Bool := true

/-- Header signature fact: the `cont` parameter of `bpkiEPKDec` is NOT
declared `const` (header line 96). -/
def bpkiEPKDec_cont_const : Bool := false

/-! ### Concrete sample inputs (used by witnesses) -/

/-- A 32-octet private key (level 128). -/
def pk0 : List Nat := List.replicate 32 1

/-- A sample password. -/
def pwd0 : List Nat := [7]

/-- A second, different password. -/
def pwd1 : List Nat := [8]

/-- An 8-octet zero salt. -/
def salt0 : List Nat := List.replicate 8 0

/-- A 17-octet share with index octet 1 (level 128). -/
def sh0 : List Nat := 1 :: List.replicate 16 2

/-- Extract the produced byte string from a successful result. -/
def getOk : Res → List Nat
  | Res.ok xs => xs
  | Res.err _ => []

/-! ### Helper lemmas -/

theorem encL_inj : ∀ {x y : List Nat}, encL x = encL y → x = y := by
  intro x
  induction x with
  | nil =>
    intro y h
    cases y with
    | nil => rfl
    | cons b s => simp only [encL] at h; omega
  | cons a t ih =>
    intro y h
    cases y with
    | nil => simp only [encL] at h; omega
    | cons b s =>
      simp only [encL] at h
      have h2 : Nat.pair a (encL t) = Nat.pair b (encL s) := by omega
      rw [Nat.pair_eq_pair] at h2
      rw [h2.1, ih h2.2]

theorem decMask_encMask (key : Nat) (xs : List Nat) :
    decMask key (encMask key xs) = xs := by
  simp [decMask, encMask, List.map_map, Function.comp_def, Nat.add_sub_cancel]

theorem unsealAE_sealAE (key : Nat) (pt : List Nat) :
    unsealAE key (sealAE key pt).1 (sealAE key pt).2 = some pt := by
  simp [unsealAE, sealAE, decMask_encMask]

theorem length_pad8 (salt : List Nat) : (pad8 salt).length = 8 := by
  simp [pad8]

theorem length_encMask (key : Nat) (xs : List Nat) :
    (encMask key xs).length = xs.length := by
  simp [encMask]

theorem assemble_length (l : Nat) (s8 : List Nat) (iter : Nat)
    (ct : List Nat) (tag : Nat) (hs8 : s8.length = 8) :
    (assemble l s8 iter ct tag).length = ct.length + 11 := by
  simp [assemble, hs8]
  omega

theorem assemble_parse_salt (l : Nat) (s8 : List Nat) (iter : Nat)
    (ct : List Nat) (tag : Nat) (hs8 : s8.length = 8) :
    ((assemble l s8 iter ct tag).drop 1).take 8 = s8 := by
  simp only [assemble, List.drop_succ_cons, List.drop_zero]
  exact List.take_left' hs8

theorem assemble_drop9 (l : Nat) (s8 : List Nat) (iter : Nat)
    (ct : List Nat) (tag : Nat) (hs8 : s8.length = 8) :
    (assemble l s8 iter ct tag).drop 9 = iter :: (ct ++ [tag]) := by
  show ((s8 ++ (iter :: (ct ++ [tag])))).drop 8 = _
  exact List.drop_left' hs8

theorem parse_ct (iter tag : Nat) (ct : List Nat) (pl : Nat)
    (hct : ct.length = pl) :
    (((iter :: (ct ++ [tag])) : List Nat).drop 1).take pl = ct := by
  simp only [List.drop_succ_cons, List.drop_zero]
  exact List.take_left' hct

theorem parse_tag (iter tag : Nat) (ct : List Nat) (pl : Nat)
    (hct : ct.length = pl) :
    (((iter :: (ct ++ [tag])) : List Nat).drop (1 + pl)).headD 0 = tag := by
  rw [Nat.add_comm, List.drop_succ_cons, List.drop_left' hct]
  rfl

theorem length_decMask (key : Nat) (xs : List Nat) :
    (decMask key xs).length = xs.length := by
  simp [decMask]

theorem unsealAE_some (key : Nat) (ct : List Nat) (tag : Nat)
    (pt : List Nat) (h : unsealAE key ct tag = some pt) :
    pt = decMask key ct := by
  unfold unsealAE at h
  split_ifs at h
  exact (Option.some_inj.mp h).symm

theorem unsealAE_fail_closed (key : Nat) (ct : List Nat) (tag : Nat)
    (h : tag ≠ mac key ct) : unsealAE key ct tag = none := by
  simp [unsealAE, h]

theorem derive_pwd_ne (pwd pwd' s : List Nat) (iter : Nat)
    (h : pwd ≠ pwd') : derive pwd s iter ≠ derive pwd' s iter := by
  intro heq
  unfold derive at heq
  rw [Nat.pair_eq_pair] at heq
  exact h (encL_inj heq.1)

theorem mac_key_ne (key key' : Nat) (ct ct' : List Nat)
    (h : key ≠ key') : mac key ct ≠ mac key' ct' := by
  intro heq
  unfold mac at heq
  rw [Nat.pair_eq_pair] at heq
  exact h heq.1

theorem assemble_tail_take (l : Nat) (s8 : List Nat) (iter : Nat)
    (ct : List Nat) (tag : Nat) (hs8 : s8.length = 8) :
    List.take 8 (assemble l s8 iter ct tag).tail = s8 := by
  show List.take 8 (s8 ++ (iter :: (ct ++ [tag]))) = s8
  exact List.take_left' hs8

theorem assemble_drop10 (l : Nat) (s8 : List Nat) (iter : Nat)
    (ct : List Nat) (tag : Nat) (hs8 : s8.length = 8) :
    List.drop 10 (assemble l s8 iter ct tag) = ct ++ [tag] := by
  have h : List.drop 1 (List.drop 9 (assemble l s8 iter ct tag)) =
      List.drop 10 (assemble l s8 iter ct tag) := List.drop_drop 1 9 _
  rw [← h, assemble_drop9 l s8 iter ct tag hs8, List.drop_succ_cons,
    List.drop_zero]

theorem assemble_get9 (l : Nat) (s8 : List Nat) (iter : Nat)
    (ct : List Nat) (tag : Nat) (hs8 : s8.length = 8) :
    (assemble l s8 iter ct tag)[9]?.getD 0 = iter := by
  have h : ((assemble l s8 iter ct tag).drop 9)[0]? = some iter := by
    rw [assemble_drop9 l s8 iter ct tag hs8]; simp
  rw [List.getElem?_drop] at h
  have h2 : (assemble l s8 iter ct tag)[9]? = some iter := by simpa using h
  rw [h2]; rfl

theorem assemble_take_ct (l : Nat) (s8 : List Nat) (iter : Nat)
    (ct : List Nat) (tag pl : Nat) (hs8 : s8.length = 8)
    (hct : ct.length = pl) :
    List.take pl (List.drop 10 (assemble l s8 iter ct tag)) = ct := by
  rw [assemble_drop10 l s8 iter ct tag hs8]
  exact List.take_left' hct

theorem assemble_getTag (l : Nat) (s8 : List Nat) (iter : Nat)
    (ct : List Nat) (tag pl i : Nat) (hs8 : s8.length = 8)
    (hct : ct.length = pl) (hi : i = 10 + pl) :
    (assemble l s8 iter ct tag)[i]?.getD 0 = tag := by
  have h : ((assemble l s8 iter ct tag).drop (10 + pl))[0]? = some tag := by
    have hd : (List.drop 10 (assemble l s8 iter ct tag)).drop pl =
        (assemble l s8 iter ct tag).drop (10 + pl) := List.drop_drop pl 10 _
    rw [← hd, assemble_drop10 l s8 iter ct tag hs8, List.drop_left' hct]
    simp
  rw [List.getElem?_drop] at h
  have h2 : (assemble l s8 iter ct tag)[10 + pl]? = some tag := by
    simpa using h
  rw [hi, h2]; rfl

theorem epkDec_assemble (lc iter tag : Nat) (s8 ct pwd : List Nat)
    (hs8 : s8.length = 8)
    (hct : ct.length = 32 ∨ ct.length = 48 ∨ ct.length = 64) :
    bpkiEPKDec (assemble lc s8 iter ct tag) pwd =
      match unsealAE (derive pwd s8 iter) ct tag with
      | some pt => Res.ok pt
      | none => Res.err Err.authFail := by
  have hlen := assemble_length lc s8 iter ct tag hs8
  rcases hct with h|h|h <;>
    (rw [bpkiEPKDec, hlen, h]; norm_num [epkLevel, bpkiEPK_keep];
     rw [assemble_tail_take lc s8 iter ct tag hs8,
       assemble_get9 lc s8 iter ct tag hs8,
       assemble_take_ct lc s8 iter ct tag _ hs8 h,
       assemble_getTag lc s8 iter ct tag _ _ hs8 h (by norm_num)])

theorem essDec_assemble (lc iter tag : Nat) (s8 ct pwd : List Nat)
    (hs8 : s8.length = 8)
    (hct : ct.length = 17 ∨ ct.length = 25 ∨ ct.length = 33) :
    bpkiESSDec (assemble lc s8 iter ct tag) pwd =
      match unsealAE (derive pwd s8 iter) ct tag with
      | some pt =>
          if 1 ≤ pt.headD 0 ∧ pt.headD 0 ≤ 16 then Res.ok pt
          else Res.err Err.authFail
      | none => Res.err Err.authFail := by
  have hlen := assemble_length lc s8 iter ct tag hs8
  rcases hct with h|h|h <;>
    (rw [bpkiESSDec, hlen, h]; norm_num [essLevel, bpkiESS_keep];
     rw [assemble_tail_take lc s8 iter ct tag hs8,
       assemble_get9 lc s8 iter ct tag hs8,
       assemble_take_ct lc s8 iter ct tag _ hs8 h,
       assemble_getTag lc s8 iter ct tag _ _ hs8 h (by norm_num)])

theorem bpkiEPKEnc_ok (pk pwd : List Nat) (iter : Nat) (salt : List Nat)
    (hpk : pk.length = 32 ∨ pk.length = 48 ∨ pk.length = 64)
    (hiter : 10000 ≤ iter) :
    bpkiEPKEnc pk pwd iter salt =
      Res.ok (assemble (4 * pk.length) (pad8 salt) iter
        (encMask (derive pwd (pad8 salt) iter) pk)
        (mac (derive pwd (pad8 salt) iter)
          (encMask (derive pwd (pad8 salt) iter) pk))) := by
  rw [bpkiEPKEnc, if_pos hpk, if_pos hiter]
  rfl

theorem bpkiESSEnc_ok (sh pwd : List Nat) (iter : Nat) (salt : List Nat)
    (hsh : sh.length = 17 ∨ sh.length = 25 ∨ sh.length = 33)
    (hiter : 10000 ≤ iter)
    (hidx : 1 ≤ sh.headD 0 ∧ sh.headD 0 ≤ 16) :
    bpkiESSEnc sh pwd iter salt =
      Res.ok (assemble (8 * (sh.length - 1)) (pad8 salt) iter
        (encMask (derive pwd (pad8 salt) iter) sh)
        (mac (derive pwd (pad8 salt) iter)
          (encMask (derive pwd (pad8 salt) iter) sh))) := by
  rw [bpkiESSEnc, if_pos hsh, if_pos hiter, if_pos hidx]
  rfl

theorem unsealAE_enc (key : Nat) (pt : List Nat) :
    unsealAE key (encMask key pt) (mac key (encMask key pt)) = some pt := by
  simp [unsealAE, decMask_encMask]

theorem epk_enc_dec (pk pwd salt : List Nat) (iter : Nat) (cont : List Nat)
    (hpk : pk.length = 32 ∨ pk.length = 48 ∨ pk.length = 64)
    (hiter : 10000 ≤ iter)
    (henc : bpkiEPKEnc pk pwd iter salt = Res.ok cont) :
    bpkiEPKDec cont pwd = Res.ok pk := by
  rw [bpkiEPKEnc_ok pk pwd iter salt hpk hiter] at henc
  injection henc with hc
  subst hc
  rw [epkDec_assemble _ _ _ _ _ _ (length_pad8 salt)
    (by rw [length_encMask]; exact hpk)]
  rw [unsealAE_enc]

theorem ess_enc_dec (sh pwd salt : List Nat) (iter : Nat) (cont : List Nat)
    (hsh : sh.length = 17 ∨ sh.length = 25 ∨ sh.length = 33)
    (hiter : 10000 ≤ iter)
    (hidx : 1 ≤ sh.headD 0 ∧ sh.headD 0 ≤ 16)
    (henc : bpkiESSEnc sh pwd iter salt = Res.ok cont) :
    bpkiESSDec cont pwd = Res.ok sh := by
  rw [bpkiESSEnc_ok sh pwd iter salt hsh hiter hidx] at henc
  injection henc with hc
  subst hc
  rw [essDec_assemble _ _ _ _ _ _ (length_pad8 salt)
    (by rw [length_encMask]; exact hsh)]
  rw [unsealAE_enc]
  show (if 1 ≤ sh.headD 0 ∧ sh.headD 0 ≤ 16 then Res.ok sh
    else Res.err Err.authFail) = Res.ok sh
  rw [if_pos hidx]

theorem epk_enc_dec_wrong_pwd (pk pwd pwd' salt : List Nat) (iter : Nat)
    (cont : List Nat)
    (hpk : pk.length = 32 ∨ pk.length = 48 ∨ pk.length = 64)
    (hiter : 10000 ≤ iter) (hne : pwd' ≠ pwd)
    (henc : bpkiEPKEnc pk pwd iter salt = Res.ok cont) :
    bpkiEPKDec cont pwd' = Res.err Err.authFail := by
  rw [bpkiEPKEnc_ok pk pwd iter salt hpk hiter] at henc
  injection henc with hc
  subst hc
  rw [epkDec_assemble _ _ _ _ _ _ (length_pad8 salt)
    (by rw [length_encMask]; exact hpk)]
  have hkey : derive pwd' (pad8 salt) iter ≠ derive pwd (pad8 salt) iter :=
    derive_pwd_ne pwd' pwd (pad8 salt) iter hne
  rw [unsealAE_fail_closed _ _ _
    (mac_key_ne _ _ _ _ (Ne.symm hkey))]

theorem ess_enc_dec_wrong_pwd (sh pwd pwd' salt : List Nat) (iter : Nat)
    (cont : List Nat)
    (hsh : sh.length = 17 ∨ sh.length = 25 ∨ sh.length = 33)
    (hiter : 10000 ≤ iter)
    (hidx : 1 ≤ sh.headD 0 ∧ sh.headD 0 ≤ 16) (hne : pwd' ≠ pwd)
    (henc : bpkiESSEnc sh pwd iter salt = Res.ok cont) :
    bpkiESSDec cont pwd' = Res.err Err.authFail := by
  rw [bpkiESSEnc_ok sh pwd iter salt hsh hiter hidx] at henc
  injection henc with hc
  subst hc
  rw [essDec_assemble _ _ _ _ _ _ (length_pad8 salt)
    (by rw [length_encMask]; exact hsh)]
  have hkey : derive pwd' (pad8 salt) iter ≠ derive pwd (pad8 salt) iter :=
    derive_pwd_ne pwd' pwd (pad8 salt) iter hne
  rw [unsealAE_fail_closed _ _ _
    (mac_key_ne _ _ _ _ (Ne.symm hkey))]

/-! ### Claim theorems -/

/-- C1: for every security level l in {128,192,256}, both container kinds
(EPK and ESS), every valid payload of the corresponding length, every
password, every iteration count ≥ 10000 and every 8-octet salt, decoding
the container produced by encode with the same password returns exactly
the original payload. -/
theorem claim_C1 :
    (∀ pk pwd salt : List Nat, ∀ iter : Nat, ∀ cont : List Nat,
      (pk.length = 32 ∨ pk.length = 48 ∨ pk.length = 64) →
      salt.length = 8 → 10000 ≤ iter →
      bpkiEPKEnc pk pwd iter salt = Res.ok cont →
      bpkiEPKDec cont pwd = Res.ok pk) ∧
    (∀ sh pwd salt : List Nat, ∀ iter : Nat, ∀ cont : List Nat,
      (sh.length = 17 ∨ sh.length = 25 ∨ sh.length = 33) →
      salt.length = 8 → 10000 ≤ iter →
      1 ≤ sh.headD 0 → sh.headD 0 ≤ 16 →
      bpkiESSEnc sh pwd iter salt = Res.ok cont →
      bpkiESSDec cont pwd = Res.ok sh) := by
  constructor
  · intro pk pwd salt iter cont hpk _ hiter henc
    exact epk_enc_dec pk pwd salt iter cont hpk hiter henc
  · intro sh pwd salt iter cont hsh _ hiter h1 h2 henc
    exact ess_enc_dec sh pwd salt iter cont hsh hiter ⟨h1, h2⟩ henc

/-- Witness for C1 at a concrete level-128 key, share, password and salt. -/
theorem claim_C1_witness :
    bpkiEPKDec (getOk (bpkiEPKEnc pk0 pwd0 10000 salt0)) pwd0 =
      Res.ok pk0 ∧
    bpkiESSDec (getOk (bpkiESSEnc sh0 pwd0 10000 salt0)) pwd0 =
      Res.ok sh0 :=
  ⟨claim_C1.1 pk0 pwd0 salt0 10000
      (getOk (bpkiEPKEnc pk0 pwd0 10000 salt0))
      (by decide) (by decide) (by decide) (by decide),
   claim_C1.2 sh0 pwd0 salt0 10000
      (getOk (bpkiESSEnc sh0 pwd0 10000 salt0))
      (by decide) (by decide) (by decide) (by decide) (by decide)
      (by decide)⟩

/-- C3: decoding a container produced by encode under some password with
any different password fails with AuthFail (never success with a wrong
payload), and the unseal operation fails closed on every tag mismatch,
whatever its cause — the outcome that a tampered container also receives. -/
theorem claim_C3 :
    (∀ pk pwd pwd' salt : List Nat, ∀ iter : Nat, ∀ cont : List Nat,
      (pk.length = 32 ∨ pk.length = 48 ∨ pk.length = 64) →
      salt.length = 8 → 10000 ≤ iter → pwd' ≠ pwd →
      bpkiEPKEnc pk pwd iter salt = Res.ok cont →
      bpkiEPKDec cont pwd' = Res.err Err.authFail) ∧
    (∀ sh pwd pwd' salt : List Nat, ∀ iter : Nat, ∀ cont : List Nat,
      (sh.length = 17 ∨ sh.length = 25 ∨ sh.length = 33) →
      salt.length = 8 → 10000 ≤ iter →
      1 ≤ sh.headD 0 → sh.headD 0 ≤ 16 → pwd' ≠ pwd →
      bpkiESSEnc sh pwd iter salt = Res.ok cont →
      bpkiESSDec cont pwd' = Res.err Err.authFail) ∧
    (∀ key : Nat, ∀ ct : List Nat, ∀ tag : Nat,
      tag ≠ mac key ct → unsealAE key ct tag = none) := by
  refine ⟨?_, ?_, ?_⟩
  · intro pk pwd pwd' salt iter cont hpk _ hiter hne henc
    exact epk_enc_dec_wrong_pwd pk pwd pwd' salt iter cont hpk hiter hne henc
  · intro sh pwd pwd' salt iter cont hsh _ hiter h1 h2 hne henc
    exact ess_enc_dec_wrong_pwd sh pwd pwd' salt iter cont hsh hiter
      ⟨h1, h2⟩ hne henc
  · exact unsealAE_fail_closed

/-- Witness for C3: a level-128 container decoded with a different
concrete password fails with AuthFail, and a concrete mismatched tag is
rejected by unseal. -/
theorem claim_C3_witness :
    bpkiEPKDec (getOk (bpkiEPKEnc pk0 pwd0 10000 salt0)) pwd1 =
      Res.err Err.authFail ∧
    bpkiESSDec (getOk (bpkiESSEnc sh0 pwd0 10000 salt0)) pwd1 =
      Res.err Err.authFail ∧
    unsealAE 5 [1, 2] 0 = none :=
  ⟨claim_C3.1 pk0 pwd0 pwd1 salt0 10000
      (getOk (bpkiEPKEnc pk0 pwd0 10000 salt0))
      (by decide) (by decide) (by decide) (by decide) (by decide),
   claim_C3.2.1 sh0 pwd0 pwd1 salt0 10000
      (getOk (bpkiESSEnc sh0 pwd0 10000 salt0))
      (by decide) (by decide) (by decide) (by decide) (by decide)
      (by decide) (by decide),
   claim_C3.2.2 5 [1, 2] 0 (by decide)⟩

/-- C9: encoding is deterministic — two calls of either encoder with
identical payload, password, iteration count and salt produce identical
results, and key derivation from identical (password, salt, iterations)
yields the same key; no randomness enters the operations. -/
theorem claim_C9 :
    (∀ pk1 pk2 pwd1' pwd2' salt1 salt2 : List Nat, ∀ iter1 iter2 : Nat,
      pk1 = pk2 → pwd1' = pwd2' → iter1 = iter2 → salt1 = salt2 →
      bpkiEPKEnc pk1 pwd1' iter1 salt1 = bpkiEPKEnc pk2 pwd2' iter2 salt2) ∧
    (∀ sh1 sh2 pwd1' pwd2' salt1 salt2 : List Nat, ∀ iter1 iter2 : Nat,
      sh1 = sh2 → pwd1' = pwd2' → iter1 = iter2 → salt1 = salt2 →
      bpkiESSEnc sh1 pwd1' iter1 salt1 = bpkiESSEnc sh2 pwd2' iter2 salt2) ∧
    (∀ pwd1' pwd2' salt1 salt2 : List Nat, ∀ iter1 iter2 : Nat,
      pwd1' = pwd2' → salt1 = salt2 → iter1 = iter2 →
      derive pwd1' salt1 iter1 = derive pwd2' salt2 iter2) := by
  refine ⟨?_, ?_, ?_⟩
  · intro pk1 pk2 p1 p2 s1 s2 i1 i2 h1 h2 h3 h4
    rw [h1, h2, h3, h4]
  · intro sh1 sh2 p1 p2 s1 s2 i1 i2 h1 h2 h3 h4
    rw [h1, h2, h3, h4]
  · intro p1 p2 s1 s2 i1 i2 h1 h2 h3
    rw [h1, h2, h3]

/-- Witness for C9 at concrete equal inputs. -/
theorem claim_C9_witness :
    bpkiEPKEnc pk0 pwd0 10000 salt0 = bpkiEPKEnc pk0 pwd0 10000 salt0 :=
  claim_C9.1 pk0 pk0 pwd0 pwd0 salt0 salt0 10000 10000 rfl rfl rfl rfl

/-- C2: both size functions are strictly increasing, hence injective, over
the levels {128,192,256}, and each decoder fails with BadInput on every
container length that is not exactly one of the three valid sizes of its
kind. -/
theorem claim_C2 :
    (bpkiEPK_keep 128 < bpkiEPK_keep 192 ∧
      bpkiEPK_keep 192 < bpkiEPK_keep 256) ∧
    (bpkiESS_keep 128 < bpkiESS_keep 192 ∧
      bpkiESS_keep 192 < bpkiESS_keep 256) ∧
    (∀ l1 l2 : Nat, (l1 = 128 ∨ l1 = 192 ∨ l1 = 256) →
      (l2 = 128 ∨ l2 = 192 ∨ l2 = 256) →
      bpkiEPK_keep l1 = bpkiEPK_keep l2 → l1 = l2) ∧
    (∀ l1 l2 : Nat, (l1 = 128 ∨ l1 = 192 ∨ l1 = 256) →
      (l2 = 128 ∨ l2 = 192 ∨ l2 = 256) →
      bpkiESS_keep l1 = bpkiESS_keep l2 → l1 = l2) ∧
    (∀ cont pwd : List Nat,
      cont.length ≠ bpkiEPK_keep 128 → cont.length ≠ bpkiEPK_keep 192 →
      cont.length ≠ bpkiEPK_keep 256 →
      bpkiEPKDec cont pwd = Res.err Err.badInput) ∧
    (∀ cont pwd : List Nat,
      cont.length ≠ bpkiESS_keep 128 → cont.length ≠ bpkiESS_keep 192 →
      cont.length ≠ bpkiESS_keep 256 →
      bpkiESSDec cont pwd = Res.err Err.badInput) := by
  refine ⟨by decide, by decide, ?_, ?_, ?_, ?_⟩
  · intro l1 l2 h1 h2 h
    rcases h1 with rfl|rfl|rfl <;> rcases h2 with rfl|rfl|rfl <;>
      norm_num [bpkiEPK_keep] at h ⊢
  · intro l1 l2 h1 h2 h
    rcases h1 with rfl|rfl|rfl <;> rcases h2 with rfl|rfl|rfl <;>
      norm_num [bpkiESS_keep] at h ⊢
  · intro cont pwd h1 h2 h3
    rw [bpkiEPKDec, if_neg]
    rintro (h|h|h)
    exacts [h1 h, h2 h, h3 h]
  · intro cont pwd h1 h2 h3
    rw [bpkiESSDec, if_neg]
    rintro (h|h|h)
    exacts [h1 h, h2 h, h3 h]

/-- Witness for C2: the empty container (length 0 is none of the valid
sizes) is rejected by both decoders, and the injectivity clauses applied
at levels 128 and 192. -/
theorem claim_C2_witness :
    bpkiEPKDec [] [] = Res.err Err.badInput ∧
    bpkiESSDec [] [] = Res.err Err.badInput ∧ (128 : Nat) = 128 :=
  ⟨claim_C2.2.2.2.2.1 [] [] (by decide) (by decide) (by decide),
   claim_C2.2.2.2.2.2 [] [] (by decide) (by decide) (by decide),
   claim_C2.2.2.1 128 128 (by decide) (by decide) (by decide)⟩

/-- C4: encoding with any iteration count below 10000 fails with BadInput
for every payload, password and salt, and encoding with exactly 10000
iterations and otherwise valid inputs succeeds. -/
theorem claim_C4 :
    (∀ pk pwd salt : List Nat, ∀ iter : Nat, iter < 10000 →
      bpkiEPKEnc pk pwd iter salt = Res.err Err.badInput) ∧
    (∀ sh pwd salt : List Nat, ∀ iter : Nat, iter < 10000 →
      bpkiESSEnc sh pwd iter salt = Res.err Err.badInput) ∧
    (∀ pk pwd salt : List Nat,
      (pk.length = 32 ∨ pk.length = 48 ∨ pk.length = 64) →
      ∃ cont, bpkiEPKEnc pk pwd 10000 salt = Res.ok cont) ∧
    (∀ sh pwd salt : List Nat,
      (sh.length = 17 ∨ sh.length = 25 ∨ sh.length = 33) →
      1 ≤ sh.headD 0 → sh.headD 0 ≤ 16 →
      ∃ cont, bpkiESSEnc sh pwd 10000 salt = Res.ok cont) := by
  refine ⟨?_, ?_, ?_, ?_⟩
  · intro pk pwd salt iter hiter
    rw [bpkiEPKEnc]
    split_ifs with h1 h2
    · omega
    · rfl
    · rfl
  · intro sh pwd salt iter hiter
    rw [bpkiESSEnc]
    split_ifs with h1 h2 h3
    · omega
    · omega
    · rfl
    · rfl
  · intro pk pwd salt h
    exact ⟨_, bpkiEPKEnc_ok pk pwd 10000 salt h (by norm_num)⟩
  · intro sh pwd salt h h1 h2
    exact ⟨_, bpkiESSEnc_ok sh pwd 10000 salt h (by norm_num) ⟨h1, h2⟩⟩

/-- Witness for C4: iterations 9999 rejected, iterations 10000 accepted,
at concrete level-128 inputs. -/
theorem claim_C4_witness :
    bpkiEPKEnc pk0 pwd0 9999 salt0 = Res.err Err.badInput ∧
    bpkiESSEnc sh0 pwd0 9999 salt0 = Res.err Err.badInput ∧
    (∃ cont, bpkiEPKEnc pk0 pwd0 10000 salt0 = Res.ok cont) ∧
    (∃ cont, bpkiESSEnc sh0 pwd0 10000 salt0 = Res.ok cont) :=
  ⟨claim_C4.1 pk0 pwd0 salt0 9999 (by decide),
   claim_C4.2.1 sh0 pwd0 salt0 9999 (by decide),
   claim_C4.2.2.1 pk0 pwd0 salt0 (by decide),
   claim_C4.2.2.2 sh0 pwd0 salt0 (by decide) (by decide) (by decide)⟩

/-- C5: for otherwise valid inputs, the ESS encoder rejects any share
whose index octet lies outside [1,16] with BadInput, and accepts index 1
and index 16. -/
theorem claim_C5 :
    (∀ sh pwd salt : List Nat, ∀ iter : Nat,
      (sh.length = 17 ∨ sh.length = 25 ∨ sh.length = 33) → 10000 ≤ iter →
      ¬(1 ≤ sh.headD 0 ∧ sh.headD 0 ≤ 16) →
      bpkiESSEnc sh pwd iter salt = Res.err Err.badInput) ∧
    (∀ sh pwd salt : List Nat, ∀ iter : Nat,
      (sh.length = 17 ∨ sh.length = 25 ∨ sh.length = 33) → 10000 ≤ iter →
      (sh.headD 0 = 1 ∨ sh.headD 0 = 16) →
      ∃ cont, bpkiESSEnc sh pwd iter salt = Res.ok cont) := by
  constructor
  · intro sh pwd salt iter hlen hiter hidx
    rw [bpkiESSEnc, if_pos hlen, if_pos hiter, if_neg hidx]
  · intro sh pwd salt iter hlen hiter hidx
    refine ⟨_, bpkiESSEnc_ok sh pwd iter salt hlen hiter ⟨?_, ?_⟩⟩ <;>
      rcases hidx with h|h <;> omega

/-- Witness for C5: share index 0 and 17 rejected, index 1 and 16
accepted, at concrete level-128 shares. -/
theorem claim_C5_witness :
    bpkiESSEnc (0 :: List.replicate 16 2) pwd0 10000 salt0 =
      Res.err Err.badInput ∧
    bpkiESSEnc (17 :: List.replicate 16 2) pwd0 10000 salt0 =
      Res.err Err.badInput ∧
    (∃ cont, bpkiESSEnc sh0 pwd0 10000 salt0 = Res.ok cont) ∧
    (∃ cont,
      bpkiESSEnc (16 :: List.replicate 16 2) pwd0 10000 salt0 =
        Res.ok cont) :=
  ⟨claim_C5.1 (0 :: List.replicate 16 2) pwd0 salt0 10000
      (by decide) (by decide) (by decide),
   claim_C5.1 (17 :: List.replicate 16 2) pwd0 salt0 10000
      (by decide) (by decide) (by decide),
   claim_C5.2 sh0 pwd0 salt0 10000 (by decide) (by decide) (by decide),
   claim_C5.2 (16 :: List.replicate 16 2) pwd0 salt0 10000
      (by decide) (by decide) (by decide)⟩

/-- C6: the EPK encoder succeeds only for private-key lengths in
{32,48,64} (otherwise BadInput) and on success the container has exactly
`bpkiEPK_keep (4 * privkey_len)` octets; the ESS encoder succeeds only for
share lengths in {17,25,33} and on success the container has exactly
`bpkiESS_keep (8 * (share_len - 1))` octets. -/
theorem claim_C6 :
    (∀ pk pwd salt : List Nat, ∀ iter : Nat, ∀ cont : List Nat,
      bpkiEPKEnc pk pwd iter salt = Res.ok cont →
      (pk.length = 32 ∨ pk.length = 48 ∨ pk.length = 64) ∧
      cont.length = bpkiEPK_keep (4 * pk.length)) ∧
    (∀ pk pwd salt : List Nat, ∀ iter : Nat,
      ¬(pk.length = 32 ∨ pk.length = 48 ∨ pk.length = 64) →
      bpkiEPKEnc pk pwd iter salt = Res.err Err.badInput) ∧
    (∀ sh pwd salt : List Nat, ∀ iter : Nat, ∀ cont : List Nat,
      bpkiESSEnc sh pwd iter salt = Res.ok cont →
      (sh.length = 17 ∨ sh.length = 25 ∨ sh.length = 33) ∧
      cont.length = bpkiESS_keep (8 * (sh.length - 1))) ∧
    (∀ sh pwd salt : List Nat, ∀ iter : Nat,
      ¬(sh.length = 17 ∨ sh.length = 25 ∨ sh.length = 33) →
      bpkiESSEnc sh pwd iter salt = Res.err Err.badInput) := by
  refine ⟨?_, ?_, ?_, ?_⟩
  · intro pk pwd salt iter cont henc
    by_cases h1 : pk.length = 32 ∨ pk.length = 48 ∨ pk.length = 64
    · by_cases h2 : 10000 ≤ iter
      · rw [bpkiEPKEnc_ok pk pwd iter salt h1 h2] at henc
        injection henc with hc
        subst hc
        refine ⟨h1, ?_⟩
        rw [assemble_length _ _ _ _ _ (length_pad8 salt), length_encMask]
        rcases h1 with h|h|h <;> rw [h] <;> norm_num [bpkiEPK_keep]
      · rw [bpkiEPKEnc, if_pos h1, if_neg h2] at henc
        exact Res.noConfusion henc
    · rw [bpkiEPKEnc, if_neg h1] at henc
      exact Res.noConfusion henc
  · intro pk pwd salt iter h
    rw [bpkiEPKEnc, if_neg h]
  · intro sh pwd salt iter cont henc
    by_cases h1 : sh.length = 17 ∨ sh.length = 25 ∨ sh.length = 33
    · by_cases h2 : 10000 ≤ iter
      · by_cases h3 : 1 ≤ sh.headD 0 ∧ sh.headD 0 ≤ 16
        · rw [bpkiESSEnc_ok sh pwd iter salt h1 h2 h3] at henc
          injection henc with hc
          subst hc
          refine ⟨h1, ?_⟩
          rw [assemble_length _ _ _ _ _ (length_pad8 salt), length_encMask]
          rcases h1 with h|h|h <;> rw [h] <;> norm_num [bpkiESS_keep]
        · rw [bpkiESSEnc, if_pos h1, if_pos h2, if_neg h3] at henc
          exact Res.noConfusion henc
      · rw [bpkiESSEnc, if_pos h1, if_neg h2] at henc
        exact Res.noConfusion henc
    · rw [bpkiESSEnc, if_neg h1] at henc
      exact Res.noConfusion henc
  · intro sh pwd salt iter h
    rw [bpkiESSEnc, if_neg h]

/-- Witness for C6: the concrete level-128 containers have the exact
sizes, and one-octet payloads are rejected. -/
theorem claim_C6_witness :
    ((pk0.length = 32 ∨ pk0.length = 48 ∨ pk0.length = 64) ∧
      (getOk (bpkiEPKEnc pk0 pwd0 10000 salt0)).length =
        bpkiEPK_keep (4 * pk0.length)) ∧
    bpkiEPKEnc [1] pwd0 10000 salt0 = Res.err Err.badInput ∧
    ((sh0.length = 17 ∨ sh0.length = 25 ∨ sh0.length = 33) ∧
      (getOk (bpkiESSEnc sh0 pwd0 10000 salt0)).length =
        bpkiESS_keep (8 * (sh0.length - 1))) ∧
    bpkiESSEnc [1] pwd0 10000 salt0 = Res.err Err.badInput :=
  ⟨claim_C6.1 pk0 pwd0 salt0 10000
      (getOk (bpkiEPKEnc pk0 pwd0 10000 salt0)) (by decide),
   claim_C6.2.1 [1] pwd0 salt0 10000 (by decide),
   claim_C6.2.2.1 sh0 pwd0 salt0 10000
      (getOk (bpkiESSEnc sh0 pwd0 10000 salt0)) (by decide),
   claim_C6.2.2.2 [1] pwd0 salt0 10000 (by decide)⟩

/-- C8: every successful ESS decode delivers a share whose index octet
lies in [1,16] (the decoder re-validates it after unsealing) and whose
length is level/8 + 1 for the level recovered from the container
length. -/
theorem claim_C8 :
    ∀ cont pwd sh : List Nat,
      bpkiESSDec cont pwd = Res.ok sh →
      (1 ≤ sh.headD 0 ∧ sh.headD 0 ≤ 16) ∧
      sh.length = essLevel cont.length / 8 + 1 := by
  intro cont pwd sh h
  simp only [bpkiESSDec] at h
  split_ifs at h with hg
  rcases hu : unsealAE
      (derive pwd (List.take 8 (List.drop 1 cont))
        ((List.drop 9 cont).headD 0))
      (List.take (essLevel cont.length / 8 + 1)
        (List.drop 1 (List.drop 9 cont)))
      ((List.drop (1 + (essLevel cont.length / 8 + 1))
        (List.drop 9 cont)).headD 0) with _ | pt
  · rw [hu] at h
    exact Res.noConfusion h
  · rw [hu] at h
    have h2 : (if 1 ≤ pt.headD 0 ∧ pt.headD 0 ≤ 16 then Res.ok pt
        else Res.err Err.authFail) = Res.ok sh := h
    clear h
    split_ifs at h2 with hidx
    · injection h2 with h'
      subst h'
      refine ⟨hidx, ?_⟩
      have hpt := unsealAE_some _ _ _ _ hu
      rw [hpt, length_decMask, List.length_take, List.length_drop,
        List.length_drop]
      rcases hg with hl|hl|hl <;> rw [hl] <;>
        norm_num [essLevel, bpkiESS_keep]

/-- Witness for C8 at the concrete level-128 share container. -/
theorem claim_C8_witness :
    (1 ≤ sh0.headD 0 ∧ sh0.headD 0 ≤ 16) ∧
    sh0.length =
      essLevel (getOk (bpkiESSEnc sh0 pwd0 10000 salt0)).length / 8 + 1 :=
  claim_C8 (getOk (bpkiESSEnc sh0 pwd0 10000 salt0)) pwd0 sh0 (by decide)

/-- C10: the ESS decoder's container parameter is declared `const` in the
header and the container bytes are unchanged by the call, while the EPK
decoder's container parameter is not declared `const`, so that guarantee
is not declared for EPK decode. -/
theorem claim_C10 :
    (∀ cont pwd : List Nat, (bpkiESSDecFrame cont pwd).2 = cont) ∧
    bpkiESSDec_cont_const = true ∧ bpkiEPKDec_cont_const = false :=
  ⟨fun _ _ => rfl, rfl, rfl⟩

end Bpki
